import Mathlib

/-!
# GHOST-LINK identity & rotating-code derivation — verification

A shallow embedding of `src/services/cryptoService.ts` and the identity
creation flow of the application component, together with proofs of the
specified invariants.

Conventions of the embedding:
* byte buffers (`Uint8Array`, `ArrayBuffer`) are `List Nat` with entries `< 256`;
* machine 32-bit words are `Nat` reduced `% 2^32` wherever overflow matters;
* JS strings are Lean `String`s; `TextEncoder().encode` is UTF-8 encoding;
* the ambient clock (`new Date()`, `Date.now()`) is an explicit `nowMs : Nat`
  parameter, milliseconds since the Unix epoch (UTC);
* fallible platform calls (`window.crypto.subtle.*`, `window.atob`) are
  `Except CryptoErr _` / `Option` valued.
-/

namespace GhostLink

/-! ## 32-bit word arithmetic (Nat mod 2^32) -/

def w32 : Nat := 4294967296

/-- Right rotation of a 32-bit word (exact for inputs `< 2^32`). -/
def rotr (n x : Nat) : Nat := x / 2 ^ n + x % 2 ^ n * 2 ^ (32 - n)

/-! ## SHA-256 (`window.crypto.subtle.digest("SHA-256", _)`)

Executable FIPS 180-4 SHA-256 over byte lists, used by both
`generateFingerprint` and `generateDailyLinkCode` in the source. -/

/-- The 64 SHA-256 round constants. -/
def K64 : List Nat :=
 [1116352408, 1899447441, 3049323471, 3921009573, 961987163, 1508970993,
  2453635748, 2870763221, 3624381080, 310598401, 607225278, 1426881987,
  1925078388, 2162078206, 2614888103, 3248222580, 3835390401, 4022224774,
  264347078, 604807628, 770255983, 1249150122, 1555081692, 1996064986,
  2554220882, 2821834349, 2952996808, 3210313671, 3336571891, 3584528711,
  113926993, 338241895, 666307205, 773529912, 1294757372, 1396182291,
  1695183700, 1986661051, 2177026350, 2456956037, 2730485921, 2820302411,
  3259730800, 3345764771, 3516065817, 3600352804, 4094571909, 275423344,
  430227734, 506948616, 659060556, 883997877, 958139571, 1322822218,
  1537002063, 1747873779, 1955562222, 2024104815, 2227730452, 2361852424,
  2428436474, 2756734187, 3204031479, 3329325298]

/-- The SHA-256 working state: eight 32-bit words. -/
structure Hs where
  a : Nat
  b : Nat
  c : Nat
  d : Nat
  e : Nat
  f : Nat
  g : Nat
  h : Nat

/-- The SHA-256 initial hash value. -/
def sha256Init : Hs :=
  ⟨1779033703, 3144134277, 1013904242, 2773480762,
   1359893119, 2600822924, 528734635, 1541459225⟩

def smallSigma0 (x : Nat) : Nat := rotr 7 x ^^^ rotr 18 x ^^^ (x >>> 3)

def smallSigma1 (x : Nat) : Nat := rotr 17 x ^^^ rotr 19 x ^^^ (x >>> 10)

def bigSigma0 (x : Nat) : Nat := rotr 2 x ^^^ rotr 13 x ^^^ rotr 22 x

def bigSigma1 (x : Nat) : Nat := rotr 6 x ^^^ rotr 11 x ^^^ rotr 25 x

def chFn (e f g : Nat) : Nat := (e &&& f) ^^^ ((e ^^^ 4294967295) &&& g)

def majFn (a b c : Nat) : Nat := (a &&& b) ^^^ (a &&& c) ^^^ (b &&& c)

/-- Merkle–Damgård padding: append `0x80`, zeros to 56 mod 64, and the
bit length as 8 big-endian bytes. -/
def shaPad (msg : List Nat) : List Nat :=
  let zeros := (64 + 56 - (msg.length + 1) % 64) % 64
  let bitLen := msg.length * 8
  msg ++ [128] ++ List.replicate zeros 0 ++
    [bitLen / 2 ^ 56 % 256, bitLen / 2 ^ 48 % 256, bitLen / 2 ^ 40 % 256,
     bitLen / 2 ^ 32 % 256, bitLen / 2 ^ 24 % 256, bitLen / 2 ^ 16 % 256,
     bitLen / 2 ^ 8 % 256, bitLen % 256]

/-- Split a padded message into `n` blocks of 64 bytes. -/
def toBlocks : Nat → List Nat → List (List Nat)
  | 0, _ => []
  | n + 1, l => l.take 64 :: toBlocks n (l.drop 64)

/-- Big-endian 4-byte groups to 32-bit words. -/
def bytesToWords : List Nat → List Nat
  | b0 :: b1 :: b2 :: b3 :: rest =>
      (((b0 * 256 + b1) * 256 + b2) * 256 + b3) :: bytesToWords rest
  | _ => []

/-- Extend the 16 message-schedule words by `fuel` more words. -/
def extendW : Nat → List Nat → List Nat
  | 0, ws => ws
  | fuel + 1, ws =>
      let n := ws.length
      let nw := (smallSigma1 (ws.getD (n - 2) 0) + ws.getD (n - 7) 0 +
                 smallSigma0 (ws.getD (n - 15) 0) + ws.getD (n - 16) 0) % w32
      extendW fuel (ws ++ [nw])

/-- One SHA-256 round. -/
def shaRound (k w : Nat) (s : Hs) : Hs :=
  let t1 := (s.h + bigSigma1 s.e + chFn s.e s.f s.g + k + w) % w32
  let t2 := (bigSigma0 s.a + majFn s.a s.b s.c) % w32
  ⟨(t1 + t2) % w32, s.a, s.b, s.c, (s.d + t1) % w32, s.e, s.f, s.g⟩

/-- Compress one 64-byte block into the running state. -/
def compressBlock (st : Hs) (block : List Nat) : Hs :=
  let ws := extendW 48 (bytesToWords block)
  let fin := (K64.zip ws).foldl (fun s kw => shaRound kw.1 kw.2 s) st
  ⟨(st.a + fin.a) % w32, (st.b + fin.b) % w32, (st.c + fin.c) % w32,
   (st.d + fin.d) % w32, (st.e + fin.e) % w32, (st.f + fin.f) % w32,
   (st.g + fin.g) % w32, (st.h + fin.h) % w32⟩

/-- A 32-bit word as 4 big-endian bytes. -/
def wordBytesBE (w : Nat) : List Nat :=
  [w / 16777216 % 256, w / 65536 % 256, w / 256 % 256, w % 256]

/-- SHA-256 of a byte list: the 32 digest bytes. -/
def sha256 (msg : List Nat) : List Nat :=
  let padded := shaPad msg
  let fin := (toBlocks (padded.length / 64) padded).foldl compressBlock sha256Init
  wordBytesBE fin.a ++ wordBytesBE fin.b ++ wordBytesBE fin.c ++
  wordBytesBE fin.d ++ wordBytesBE fin.e ++ wordBytesBE fin.f ++
  wordBytesBE fin.g ++ wordBytesBE fin.h

example : sha256 [] =
  [227, 176, 196, 66, 152, 252, 28, 20, 154, 251, 244, 200, 153, 111, 185, 36,
   39, 174, 65, 228, 100, 155, 147, 76, 164, 149, 153, 27, 120, 82, 184, 85] := by
  decide

example : sha256 [65] =
  [85, 154, 234, 208, 130, 100, 213, 121, 93, 57, 9, 113, 140, 221, 5, 171,
   212, 149, 114, 232, 79, 229, 85, 144, 238, 243, 26, 136, 160, 143, 223, 253] := by
  decide

/-! ## Error vocabulary

The spec's abstract error taxonomy: `CryptoUnavailable` for a failing
platform crypto collaborator, `MalformedKeyInput` for a key input that is
not validly encoded (in the source, `window.atob` throwing on invalid
base64). -/

inductive CryptoErr where
  | cryptoUnavailable
  | malformedKeyInput
deriving DecidableEq, Repr

/-! ## Base64 (`window.btoa` / `window.atob`)

`arrayBufferToBase64` builds a binary string whose char codes are the
buffer's bytes and calls `window.btoa`, i.e. RFC 4648 base64 of the bytes.
`base64ToArrayBuffer` calls `window.atob` (HTML forgiving-base64 decode)
and reads the char codes back as bytes; a decode failure is the thrown
`InvalidCharacterError`, modelled as `none`. -/

def b64Alphabet : List Char :=
  "ABCDEFGHIJKLMNOPQRSTUVWXYZabcdefghijklmnopqrstuvwxyz0123456789+/".data

def b64Char (v : Nat) : Char := b64Alphabet.getD v 'A'

/-- The 6-bit groups of a byte list, high bits first; a final partial group
is padded with zero bits on the right. -/
def sextets : List Nat → List Nat
  | [] => []
  | [b1] => [b1 / 4, b1 % 4 * 16]
  | [b1, b2] => [b1 / 4, b1 % 4 * 16 + b2 / 16, b2 % 16 * 4]
  | b1 :: b2 :: b3 :: rest =>
      b1 / 4 :: (b1 % 4 * 16 + b2 / 16) :: (b2 % 16 * 4 + b3 / 64) :: b3 % 64 ::
      sextets rest

/-- Number of `=` padding chars for a byte count. -/
def b64PadLen (n : Nat) : Nat :=
  match n % 3 with
  | 1 => 2
  | 2 => 1
  | _ => 0

def arrayBufferToBase64 (bytes : List Nat) : String :=
  String.mk ((sextets bytes).map b64Char ++ List.replicate (b64PadLen bytes.length) '=')

/-- ASCII whitespace, removed by forgiving-base64 decode. -/
def isB64Ws (c : Char) : Bool :=
  c == ' ' || c == '\t' || c == '\n' || c == '\r' || c == '\x0c'

def sextetOfChar (c : Char) : Option Nat :=
  let i := b64Alphabet.indexOf c
  if i < 64 then some i else none

/-- Remove one trailing `=` if present. -/
def stripOnePad (cs : List Char) : List Char :=
  if cs.getLast? = some '=' then cs.dropLast else cs

/-- Reassemble bytes from 6-bit groups; a trailing group of 2 or 3 sextets
yields 1 or 2 bytes, the leftover low bits being discarded. A trailing
group of 1 sextet is impossible in a valid input. -/
def sextetsToBytes : List Nat → Option (List Nat)
  | [] => some []
  | [_] => none
  | [a, b] => some [a * 4 + b / 16]
  | [a, b, c] => some [a * 4 + b / 16, b % 16 * 16 + c / 4]
  | a :: b :: c :: d :: rest =>
      (sextetsToBytes rest).map
        (fun tail => (a * 4 + b / 16) :: (b % 16 * 16 + c / 4) :: (c % 4 * 64 + d) :: tail)

/-- Map every character to its 6-bit value, failing on the first character
outside the alphabet. -/
def decodeSextetChars : List Char → Option (List Nat)
  | [] => some []
  | c :: cs =>
    match sextetOfChar c, decodeSextetChars cs with
    | some v, some vs => some (v :: vs)
    | _, _ => none

/-- `window.atob`: HTML forgiving-base64 decode, `none` on failure. -/
def atob (s : String) : Option (List Nat) :=
  let cs := s.data.filter (fun c => !(isB64Ws c))
  let cs := if cs.length % 4 = 0 then stripOnePad (stripOnePad cs) else cs
  if cs.length % 4 = 1 then none
  else
    match decodeSextetChars cs with
    | none => none
    | some vs => sextetsToBytes vs

def base64ToArrayBuffer (s : String) : Option (List Nat) := atob s

/-! ## Hex rendering and UTF-8 -/

/-- One hex digit, lowercase (as `Number.prototype.toString(16)` emits). -/
def hexDigit (n : Nat) : Char := "0123456789abcdef".data.getD n '0'

/-- `b.toString(16).padStart(2, "0")` for a byte `b < 256`. -/
def hexByte (b : Nat) : List Char := [hexDigit (b / 16), hexDigit (b % 16)]

/-- UTF-8 encoding of one scalar value (`TextEncoder` behaviour). -/
def utf8Char (c : Char) : List Nat :=
  let n := c.toNat
  if n < 128 then [n]
  else if n < 2048 then [192 + n / 64, 128 + n % 64]
  else if n < 65536 then [224 + n / 4096, 128 + n / 64 % 64, 128 + n % 64]
  else [240 + n / 262144, 128 + n / 4096 % 64, 128 + n / 64 % 64, 128 + n % 64]

/-- `new TextEncoder().encode(s)`: the UTF-8 bytes of a string. -/
def utf8Bytes (s : String) : List Nat := s.data.flatMap utf8Char

/-! ## UTC calendar dates (`new Date(ms).toISOString()`) -/

def msPerDay : Nat := 86400000

/-- Gregorian (year, month, day) of a day count since 1970-01-01 UTC
(the standard days-to-civil algorithm). -/
def civilFromDays (days : Nat) : Nat × Nat × Nat :=
  let z := days + 719468
  let era := z / 146097
  let doe := z % 146097
  let yoe := (doe - doe / 1460 + doe / 36524 - doe / 146096) / 365
  let y := yoe + era * 400
  let doy := doe - (365 * yoe + yoe / 4 - yoe / 100)
  let mp := (5 * doy + 2) / 153
  let d := doy - (153 * mp + 2) / 5 + 1
  let m := if mp < 10 then mp + 3 else mp - 9
  (if m ≤ 2 then y + 1 else y, m, d)

def digitChar (d : Nat) : Char := Char.ofNat (48 + d)

/-- Decimal digit characters of `m`, most significant first (fuel-driven so
the kernel can reduce it; `fuel ≥` the digit count suffices). -/
def natDigitsAux : Nat → Nat → List Char
  | 0, _ => []
  | fuel + 1, m => if m < 10 then [digitChar m] else natDigitsAux fuel (m / 10) ++ [digitChar (m % 10)]

def natStr (n : Nat) : List Char := natDigitsAux (n + 1) n

/-- `String(n).padStart(w, "0")`. -/
def padNum (w n : Nat) : List Char := List.replicate (w - (natStr n).length) '0' ++ natStr n

/-- The `YYYY-MM-DD` part of the ISO string for a day count. -/
def isoDateChars (days : Nat) : List Char :=
  let ymd := civilFromDays days
  padNum 4 ymd.1 ++ ['-'] ++ padNum 2 ymd.2.1 ++ ['-'] ++ padNum 2 ymd.2.2

/-- The `HH:MM:SS.mmmZ` part of the ISO string for a ms-of-day. -/
def isoTimeChars (msInDay : Nat) : List Char :=
  padNum 2 (msInDay / 3600000) ++ [':'] ++ padNum 2 (msInDay / 60000 % 60) ++ [':'] ++
  padNum 2 (msInDay / 1000 % 60) ++ ['.'] ++ padNum 3 (msInDay % 1000) ++ ['Z']

/-- `new Date(nowMs).toISOString()`: `YYYY-MM-DDTHH:MM:SS.mmmZ` in UTC. -/
def toISOString (nowMs : Nat) : String :=
  String.mk (isoDateChars (nowMs / msPerDay) ++ ['T'] ++ isoTimeChars (nowMs % msPerDay))

/-- `s.split("T")[0]`: the prefix of `s` before the first `T`. -/
def splitTHead (s : String) : String :=
  String.mk (s.data.takeWhile (fun c => c != 'T'))

/-! ## `cryptoService.ts` -/

/-- `window.crypto.subtle.digest("SHA-256", _)` with the digest primitive
available. -/
def subtleDigest (bs : List Nat) : Except CryptoErr (List Nat) := .ok (sha256 bs)

/-- `generateFingerprint`, parametric in the digest collaborator so a
stubbed failing platform can be expressed. Decodes the base64 key
(`MalformedKeyInput` when `atob` throws), digests the raw bytes, renders
lowercase hex, takes the first 12 chars and uppercases them. -/
def generateFingerprintWith (digest : List Nat → Except CryptoErr (List Nat))
    (publicKeyBase64 : String) : Except CryptoErr String :=
  match base64ToArrayBuffer publicKeyBase64 with
  | none => .error .malformedKeyInput
  | some data =>
    match digest data with
    | .error e => .error e
    | .ok hash =>
      let hashHex := hash.flatMap hexByte
      .ok (String.mk ((hashHex.take 12).map Char.toUpper))

/-- `generateFingerprint` as shipped: the real SHA-256 digest. -/
def generateFingerprint (publicKeyBase64 : String) : Except CryptoErr String :=
  generateFingerprintWith subtleDigest publicKeyBase64

/-- The restricted link-code alphabet (no `I`, `O`, `0`, `1`). -/
def linkAlphabet : List Char := "ABCDEFGHJKLMNPQRSTUVWXYZ23456789".data

/-- `generateDailyLinkCode`: day bucket from the ambient clock
(`new Date().toISOString().split("T")[0]`), SHA-256 over the UTF-8 bytes of
`publicKeyBase64 + dateBucket`, then 8 alphabet chars (`byte mod 32`) with
a dash appended after the 4th. -/
def generateDailyLinkCode (nowMs : Nat) (publicKeyBase64 : String) : String :=
  let dateBucket := splitTHead (toISOString nowMs)
  let data := utf8Bytes (publicKeyBase64 ++ dateBucket)
  let hash := sha256 data
  let chars := linkAlphabet
  (List.range 8).foldl
    (fun code i =>
      let code := code.push (chars.getD (hash.getD i 0 % chars.length) 'A')
      if i == 3 then code.push '-' else code)
    ""

/-- The `RsaHashedKeyGenParams` dictionary passed to
`window.crypto.subtle.generateKey`. -/
structure RsaHashedKeyGenParams where
  name : String
  modulusLength : Nat
  publicExponent : List Nat
  hash : String
deriving DecidableEq, Repr

/-- The literal algorithm object in `generateKeyPair`. -/
def rsaKeyGenParams : RsaHashedKeyGenParams :=
  ⟨"RSA-OAEP", 2048, [1, 0, 1], "SHA-256"⟩

/-- `generateKeyPair`: asks the platform for an RSA-OAEP key pair with
`rsaKeyGenParams`, exports both halves (spki / pkcs8 byte buffers, the
collaborator's output) and base64-encodes them. The collaborator
`subtleGenerateKey` stands for `window.crypto.subtle`
generateKey-and-exportKey; its failure is the platform's crypto being
unavailable. -/
def generateKeyPair
    (subtleGenerateKey : RsaHashedKeyGenParams → Except CryptoErr (List Nat × List Nat)) :
    Except CryptoErr (String × String) :=
  match subtleGenerateKey rsaKeyGenParams with
  | .error e => .error e
  | .ok kp => .ok (arrayBufferToBase64 kp.1, arrayBufferToBase64 kp.2)

/-! ## Identity creation (application component, `handleCreateIdentity`) -/

/-- The stored identity record. -/
structure UserIdentity where
  publicKey : String
  privateKey : String
  fingerprint : String
  createdAt : Nat
deriving DecidableEq, Repr

/-- `handleCreateIdentity`: generate a key pair, derive the fingerprint of
the public key, stamp `Date.now()`, and only then write the composed record
to storage (`localStorage.setItem`). Returns the outcome together with the
resulting store; a failing collaborator leaves the store untouched because
the write happens after both awaits succeed. -/
def handleCreateIdentity
    (subtleGenerateKey : RsaHashedKeyGenParams → Except CryptoErr (List Nat × List Nat))
    (digest : List Nat → Except CryptoErr (List Nat))
    (nowMs : Nat) (store : Option UserIdentity) :
    Except CryptoErr UserIdentity × Option UserIdentity :=
  match generateKeyPair subtleGenerateKey with
  | .error e => (.error e, store)
  | .ok kp =>
    match generateFingerprintWith digest kp.1 with
    | .error e => (.error e, store)
    | .ok fp =>
      let newIdentity : UserIdentity := ⟨kp.1, kp.2, fp, nowMs⟩
      (.ok newIdentity, some newIdentity)

/-- An ambient invocation context: the clock and entropy state of the
platform at call time. `generateFingerprint`'s body reads neither. -/
structure Ambient where
  nowMs : Nat
  entropy : List Nat

/-- `generateFingerprint` as invoked at some ambient platform state: the
source body references no clock and no randomness, so the context is
unused. -/
def generateFingerprintAt (_amb : Ambient) (publicKeyBase64 : String) :
    Except CryptoErr String :=
  generateFingerprint publicKeyBase64

/-! ## Spec-side derivations

Definitions following the spec's wording, to be compared with the embedded
source functions. -/

/-- The UTC calendar date of a reference time, rendered as an ISO date
string (`YYYY-MM-DD`) — the spec's day bucket. -/
def dayBucketUTC (nowMs : Nat) : String := String.mk (isoDateChars (nowMs / msPerDay))

/-- Digest bytes to the `XXXX-XXXX` code: 8 characters, each a digest byte
`mod 32` into the restricted alphabet, with the separator after the 4th. -/
def mkLinkCode (h : List Nat) : String :=
  String.mk
    [linkAlphabet.getD (h.getD 0 0 % 32) 'A', linkAlphabet.getD (h.getD 1 0 % 32) 'A',
     linkAlphabet.getD (h.getD 2 0 % 32) 'A', linkAlphabet.getD (h.getD 3 0 % 32) 'A', '-',
     linkAlphabet.getD (h.getD 4 0 % 32) 'A', linkAlphabet.getD (h.getD 5 0 % 32) 'A',
     linkAlphabet.getD (h.getD 6 0 % 32) 'A', linkAlphabet.getD (h.getD 7 0 % 32) 'A']

/-- The claim's reading of the derivation, day bucket concatenated first
(`digest(bucket + pk)`), for comparison with the source's `pk + bucket`. -/
def linkCodeDayBucketFirst (nowMs : Nat) (publicKeyBase64 : String) : String :=
  mkLinkCode (sha256 (utf8Bytes (dayBucketUTC nowMs ++ publicKeyBase64)))

/-- The amended derivation steps: UTC ISO day bucket, digest input
`pk ++ bucket`, SHA-256, bytes mapped into the alphabet. -/
def linkCodeSpec (publicKeyBase64 : String) (nowMs : Nat) : String :=
  mkLinkCode (sha256 (utf8Bytes (publicKeyBase64 ++ dayBucketUTC nowMs)))

/-- The spec's fingerprint: SHA-256 of the raw public-key bytes, lowercase
hex, first 12 characters, uppercased. -/
def deriveFingerprintSpec (publicKeyBytes : List Nat) : String :=
  String.mk ((((sha256 publicKeyBytes).flatMap hexByte).take 12).map Char.toUpper)

/-! ## Helper lemmas: digest shape and code format -/

theorem sha256_length (msg : List Nat) : (sha256 msg).length = 32 := by
  simp [sha256, wordBytesBE]

theorem sha256_lt (msg : List Nat) : ∀ b ∈ sha256 msg, b < 256 := by
  intro b hb
  simp [sha256, wordBytesBE] at hb
  rcases hb with h | h | h | h | h | h | h | h <;> rcases h with h | h | h | h <;> omega

theorem linkAlphabet_length : linkAlphabet.length = 32 := rfl

/-- The source's 8-iteration accumulator loop, unfolded. -/
theorem generateDailyLinkCode_eq (nowMs : Nat) (pk : String) :
    generateDailyLinkCode nowMs pk =
      mkLinkCode (sha256 (utf8Bytes (pk ++ splitTHead (toISOString nowMs)))) := by
  have hl : linkAlphabet.length = 32 := rfl
  simp [generateDailyLinkCode, mkLinkCode, List.range_succ, String.push, hl]

theorem getD_mem_of_lt {α : Type} (l : List α) (i : Nat) (d : α) (h : i < l.length) :
    l.getD i d ∈ l := by
  simp [List.getD_eq_getElem?_getD, List.getElem?_eq_getElem h]

theorem mkLinkCode_data (h : List Nat) :
    (mkLinkCode h).data =
      [linkAlphabet.getD (h.getD 0 0 % 32) 'A', linkAlphabet.getD (h.getD 1 0 % 32) 'A',
       linkAlphabet.getD (h.getD 2 0 % 32) 'A', linkAlphabet.getD (h.getD 3 0 % 32) 'A', '-',
       linkAlphabet.getD (h.getD 4 0 % 32) 'A', linkAlphabet.getD (h.getD 5 0 % 32) 'A',
       linkAlphabet.getD (h.getD 6 0 % 32) 'A', linkAlphabet.getD (h.getD 7 0 % 32) 'A'] := rfl

theorem mkLinkCode_length (h : List Nat) : (mkLinkCode h).length = 9 := rfl

theorem alphaChar_mem (x : Nat) : linkAlphabet.getD (x % 32) 'A' ∈ linkAlphabet :=
  getD_mem_of_lt _ _ _ (by rw [linkAlphabet_length]; exact Nat.mod_lt _ (by norm_num))

/-! ## Helper lemmas: the day bucket -/

theorem takeWhile_append_cons {α : Type} (p : α → Bool) (xs : List α) (y : α) (ys : List α)
    (h1 : ∀ x ∈ xs, p x = true) (h2 : p y = false) :
    (xs ++ y :: ys).takeWhile p = xs := by
  induction xs with
  | nil => simp [List.takeWhile_cons, h2]
  | cons a l ih =>
      simp only [List.cons_append, List.takeWhile_cons, h1 a (by simp), if_true]
      rw [ih (fun x hx => h1 x (by simp [hx]))]

theorem natDigitsAux_mem (fuel : Nat) :
    ∀ m c, c ∈ natDigitsAux fuel m → ∃ d, d < 10 ∧ c = digitChar d := by
  induction fuel with
  | zero => intro m c hc; simp [natDigitsAux] at hc
  | succ f ih =>
      intro m c hc
      by_cases hm : m < 10
      · simp [natDigitsAux, hm] at hc
        exact ⟨m, hm, hc⟩
      · simp [natDigitsAux, hm] at hc
        rcases hc with hc | hc
        · exact ih _ _ hc
        · exact ⟨m % 10, Nat.mod_lt _ (by norm_num), hc⟩

theorem padNum_mem (w n : Nat) (c : Char) (hc : c ∈ padNum w n) :
    c = '0' ∨ ∃ d, d < 10 ∧ c = digitChar d := by
  rcases List.mem_append.mp hc with h | h
  · exact Or.inl (List.eq_of_mem_replicate h)
  · exact Or.inr (natDigitsAux_mem _ _ _ h)

theorem digitChar_ne_T : ∀ d, d < 10 → (digitChar d != 'T') = true := by decide

theorem isoDateChars_ne_T (days : Nat) : ∀ c ∈ isoDateChars days, (c != 'T') = true := by
  intro c hc
  simp only [isoDateChars, List.append_assoc, List.mem_append, List.mem_singleton] at hc
  have hpad : ∀ w n, c ∈ padNum w n → (c != 'T') = true := by
    intro w n h
    rcases padNum_mem w n c h with h0 | ⟨d, hd, rfl⟩
    · subst h0; decide
    · exact digitChar_ne_T d hd
  rcases hc with h | h | h | h | h
  · exact hpad _ _ h
  · subst h; decide
  · exact hpad _ _ h
  · subst h; decide
  · exact hpad _ _ h

/-- `split("T")[0]` of the full ISO string is exactly the date part: the
day bucket is the UTC calendar date. -/
theorem dateBucket_eq (nowMs : Nat) :
    splitTHead (toISOString nowMs) = dayBucketUTC nowMs := by
  have hrw : isoDateChars (nowMs / msPerDay) ++ ['T'] ++ isoTimeChars (nowMs % msPerDay)
      = isoDateChars (nowMs / msPerDay) ++ 'T' :: isoTimeChars (nowMs % msPerDay) := by simp
  show String.mk ((isoDateChars (nowMs / msPerDay) ++ ['T'] ++
    isoTimeChars (nowMs % msPerDay)).takeWhile (fun c => c != 'T')) = _
  rw [hrw, takeWhile_append_cons _ _ _ _ (isoDateChars_ne_T _) (by decide)]
  rfl

/-! ## Helper lemmas: base64 round trip -/

theorem b64Char_props :
    ∀ v, v < 64 → sextetOfChar (b64Char v) = some v ∧ b64Char v ≠ '=' ∧
      isB64Ws (b64Char v) = false := by decide

theorem sextets_lt : ∀ bs : List Nat, (∀ b ∈ bs, b < 256) → ∀ v ∈ sextets bs, v < 64 := by
  intro bs
  induction bs using sextets.induct with
  | case1 => intro _ v hv; simp [sextets] at hv
  | case2 b1 =>
      intro h v hv
      have h1 := h b1 (by simp)
      simp [sextets] at hv
      rcases hv with rfl | rfl <;> omega
  | case3 b1 b2 =>
      intro h v hv
      have h1 := h b1 (by simp)
      have h2 := h b2 (by simp)
      simp [sextets] at hv
      rcases hv with rfl | rfl | rfl <;> omega
  | case4 b1 b2 b3 rest ih =>
      intro h v hv
      have h1 := h b1 (by simp)
      have h2 := h b2 (by simp)
      have h3 := h b3 (by simp)
      simp only [sextets, List.mem_cons] at hv
      rcases hv with rfl | rfl | rfl | rfl | hv
      · omega
      · omega
      · omega
      · omega
      · exact ih (fun b hb => h b (by simp [hb])) v hv

theorem sextets_length : ∀ bs : List Nat, (sextets bs).length = (4 * bs.length + 2) / 3 := by
  intro bs
  induction bs using sextets.induct with
  | case1 => rfl
  | case2 b1 => simp [sextets]
  | case3 b1 b2 => simp [sextets]
  | case4 b1 b2 b3 rest ih => simp [sextets, ih]; omega

theorem decodeSextetChars_map :
    ∀ vs : List Nat, (∀ v ∈ vs, v < 64) → decodeSextetChars (vs.map b64Char) = some vs := by
  intro vs
  induction vs with
  | nil => intro _; rfl
  | cons a l ih =>
      intro h
      have ha : sextetOfChar (b64Char a) = some a := (b64Char_props a (h a (by simp))).1
      simp [decodeSextetChars, ha, ih (fun v hv => h v (by simp [hv]))]

theorem sextetsToBytes_sextets :
    ∀ bs : List Nat, (∀ b ∈ bs, b < 256) → sextetsToBytes (sextets bs) = some bs := by
  intro bs
  induction bs using sextets.induct with
  | case1 => intro _; rfl
  | case2 b1 =>
      intro h
      have h1 := h b1 (by simp)
      simp [sextets, sextetsToBytes]
      omega
  | case3 b1 b2 =>
      intro h
      have h1 := h b1 (by simp)
      have h2 := h b2 (by simp)
      simp [sextets, sextetsToBytes]
      constructor <;> omega
  | case4 b1 b2 b3 rest ih =>
      intro h
      have h1 := h b1 (by simp)
      have h2 := h b2 (by simp)
      have h3 := h b3 (by simp)
      have hr := ih (fun b hb => h b (by simp [hb]))
      simp [sextets, sextetsToBytes, hr]
      refine ⟨by omega, by omega, by omega⟩

theorem stripOnePad_concat (cs : List Char) : stripOnePad (cs ++ ['=']) = cs := by
  simp [stripOnePad, List.getLast?_concat, List.dropLast_concat]

theorem stripOnePad_of_ne (cs : List Char) (h : ∀ c ∈ cs, c ≠ '=') : stripOnePad cs = cs := by
  unfold stripOnePad
  cases hl : cs.getLast? with
  | none => simp
  | some a =>
      have ha : a ∈ cs := List.mem_of_mem_getLast? hl
      simp [h a ha]

/-- The round trip: decoding the encoding of any byte buffer restores it
byte for byte. -/
theorem atob_arrayBufferToBase64 (bs : List Nat) (h : ∀ b ∈ bs, b < 256) :
    atob (arrayBufferToBase64 bs) = some bs := by
  have hvs : ∀ v ∈ sextets bs, v < 64 := sextets_lt bs h
  have hcore : ∀ c ∈ (sextets bs).map b64Char, c ≠ '=' ∧ isB64Ws c = false := by
    intro c hc
    rcases List.mem_map.mp hc with ⟨v, hv, rfl⟩
    have hp := b64Char_props v (hvs v hv)
    exact ⟨hp.2.1, hp.2.2⟩
  have hdata : (arrayBufferToBase64 bs).data
      = (sextets bs).map b64Char ++ List.replicate (b64PadLen bs.length) '=' := rfl
  have hfil : ((sextets bs).map b64Char ++
      List.replicate (b64PadLen bs.length) '=').filter (fun c => !(isB64Ws c))
      = (sextets bs).map b64Char ++ List.replicate (b64PadLen bs.length) '=' := by
    apply List.filter_eq_self.mpr
    intro c hc
    rcases List.mem_append.mp hc with hc | hc
    · simp [(hcore c hc).2]
    · have hce : c = '=' := List.eq_of_mem_replicate hc
      subst hce; rfl
  have hL : (sextets bs).length = (4 * bs.length + 2) / 3 := sextets_length bs
  have hstrip : stripOnePad (stripOnePad ((sextets bs).map b64Char ++
      List.replicate (b64PadLen bs.length) '=')) = (sextets bs).map b64Char := by
    have hne := fun c hc => (hcore c hc).1
    have hmod : bs.length % 3 = 0 ∨ bs.length % 3 = 1 ∨ bs.length % 3 = 2 := by omega
    rcases hmod with h3 | h3 | h3
    · have hp : b64PadLen bs.length = 0 := by simp [b64PadLen, h3]
      rw [hp]
      simp only [List.replicate, List.append_nil]
      rw [stripOnePad_of_ne _ hne, stripOnePad_of_ne _ hne]
    · have hp : b64PadLen bs.length = 2 := by simp [b64PadLen, h3]
      rw [hp]
      have hsp : (sextets bs).map b64Char ++ List.replicate 2 '='
          = ((sextets bs).map b64Char ++ ['=']) ++ ['='] := by simp
      rw [hsp, stripOnePad_concat, stripOnePad_concat]
    · have hp : b64PadLen bs.length = 1 := by simp [b64PadLen, h3]
      rw [hp]
      have hsp : (sextets bs).map b64Char ++ List.replicate 1 '='
          = (sextets bs).map b64Char ++ ['='] := by simp
      rw [hsp, stripOnePad_concat, stripOnePad_of_ne _ hne]
  have hlen0 : ((sextets bs).map b64Char ++
      List.replicate (b64PadLen bs.length) '=').length % 4 = 0 := by
    have hmod : bs.length % 3 = 0 ∨ bs.length % 3 = 1 ∨ bs.length % 3 = 2 := by omega
    rcases hmod with h3 | h3 | h3 <;>
      simp [b64PadLen, h3, List.length_append, List.length_map, hL] <;> omega
  have hlen1 : ¬ ((sextets bs).map b64Char).length % 4 = 1 := by
    have hmod : bs.length % 3 = 0 ∨ bs.length % 3 = 1 ∨ bs.length % 3 = 2 := by omega
    simp only [List.length_map, hL]
    rcases hmod with h3 | h3 | h3 <;> omega
  simp only [atob, hdata, hfil, hlen0, if_true, hstrip, hlen1, if_false,
    decodeSextetChars_map (sextets bs) hvs, sextetsToBytes_sextets bs h]

/-! ## Helper lemmas: fingerprint rendering -/

theorem flatMap_hexByte_length (l : List Nat) : (l.flatMap hexByte).length = 2 * l.length := by
  induction l with
  | nil => rfl
  | cons b t ih => simp [hexByte, ih]; omega

theorem hexDigit_mem (n : Nat) : hexDigit n ∈ "0123456789abcdef".data := by
  by_cases h : n < 16
  · exact getD_mem_of_lt _ _ _ (by simpa using h)
  · have he : hexDigit n = '0' := List.getD_eq_default _ _ (by simpa using h)
    rw [he]; decide

theorem toUpper_hex_mem :
    ∀ c ∈ "0123456789abcdef".data, Char.toUpper c ∈ "0123456789ABCDEF".data := by decide

/-- The fingerprint of decoded bytes: the source pipeline agrees with the
spec's step description and yields 12 uppercase hex characters. -/
theorem generateFingerprint_spec (s : String) (bs : List Nat)
    (hdec : base64ToArrayBuffer s = some bs) :
    generateFingerprint s = .ok (deriveFingerprintSpec bs) ∧
    (deriveFingerprintSpec bs).length = 12 ∧
    ∀ c ∈ (deriveFingerprintSpec bs).data, c ∈ "0123456789ABCDEF".data := by
  refine ⟨?_, ?_, ?_⟩
  · simp only [generateFingerprint, generateFingerprintWith, hdec, subtleDigest,
      deriveFingerprintSpec]
  · show ((((sha256 bs).flatMap hexByte).take 12).map Char.toUpper).length = 12
    rw [List.length_map, List.length_take, flatMap_hexByte_length, sha256_length]
    rfl
  · intro c hc
    replace hc : c ∈ (((sha256 bs).flatMap hexByte).take 12).map Char.toUpper := hc
    rcases List.mem_map.mp hc with ⟨c0, hc0, rfl⟩
    have hmem : c0 ∈ (sha256 bs).flatMap hexByte := List.mem_of_mem_take hc0
    rcases List.mem_flatMap.mp hmem with ⟨b, _, hb⟩
    have hlow : c0 ∈ "0123456789abcdef".data := by
      simp only [hexByte, List.mem_cons, List.not_mem_nil, or_false] at hb
      rcases hb with rfl | rfl <;> exact hexDigit_mem _
    exact toUpper_hex_mem c0 hlow

theorem alphaChar_contains (x : Nat) :
    linkAlphabet.contains (linkAlphabet.getD (x % 32) 'A') = true :=
  List.elem_eq_true_of_mem (alphaChar_mem x)

theorem alphaCharElem_mem (x : Nat) : (linkAlphabet[x % 32]?).getD 'A' ∈ linkAlphabet := by
  rw [← List.getD_eq_getElem?_getD]
  exact alphaChar_mem x

/-! ## The claims -/

/-- C1, counterexample: the digest input is not the day bucket followed by
the encoded public key — deriving the code that way disagrees with the
source on a concrete key and date. -/
theorem C1_counterexample :
    generateDailyLinkCode 0 "QQ==" ≠ linkCodeDayBucketFirst 0 "QQ==" := by decide

/-- C1 (amended): the link code is derived by exactly these steps — the day
bucket is the UTC calendar date of the reference time as an ISO date
string, the digest input is the encoded public key concatenated with the
day bucket (key first), and the output characters are drawn from the
SHA-256 digest of that concatenation. -/
theorem C1_link_derivation : ∀ (now : Nat) (pk : String),
    generateDailyLinkCode now pk = linkCodeSpec pk now := by
  intro now pk
  rw [generateDailyLinkCode_eq, dateBucket_eq]
  rfl

/-- C2: for a fixed public key the code is the same for any two reference
times in the same UTC calendar-day bucket (no dependence on time of day —
and none on the private key or randomness, which the derivation never
takes), and it does change across a day boundary (shown on a concrete key
at the first rotation). -/
theorem C2_rotation :
    (∀ (pk : String) (t1 t2 : Nat), t1 / msPerDay = t2 / msPerDay →
      generateDailyLinkCode t1 pk = generateDailyLinkCode t2 pk) ∧
    generateDailyLinkCode 0 "QQ==" ≠ generateDailyLinkCode 86400000 "QQ==" := by
  constructor
  · intro pk t1 t2 h12
    rw [generateDailyLinkCode_eq, generateDailyLinkCode_eq, dateBucket_eq, dateBucket_eq]
    have hb : dayBucketUTC t1 = dayBucketUTC t2 := by unfold dayBucketUTC; rw [h12]
    rw [hb]
  · decide

/-- C2 witness: noon of day 0 shares the bucket of second 1 of day 0 and
the codes coincide. -/
theorem C2_rotation_witness :
    (1000 : Nat) / msPerDay = 43200000 / msPerDay ∧
    generateDailyLinkCode 1000 "QQ==" = generateDailyLinkCode 43200000 "QQ==" :=
  ⟨by decide, C2_rotation.1 "QQ==" 1000 43200000 (by decide)⟩

/-- C3: on a validly encoded key, `generateFingerprint` returns the SHA-256
digest of the decoded key bytes rendered as hex, truncated to its first 12
characters and uppercased — a 12-character uppercase hexadecimal string. -/
theorem C3_fingerprint (s : String) (bs : List Nat)
    (hdec : base64ToArrayBuffer s = some bs) :
    generateFingerprint s = .ok (deriveFingerprintSpec bs) ∧
    (deriveFingerprintSpec bs).length = 12 ∧
    ∀ c ∈ (deriveFingerprintSpec bs).data, c ∈ "0123456789ABCDEF".data :=
  generateFingerprint_spec s bs hdec

/-- C3 witness: the fingerprint of the key encoding the single byte 65. -/
theorem C3_fingerprint_witness :
    base64ToArrayBuffer "QQ==" = some [65] ∧
    generateFingerprint "QQ==" = .ok (deriveFingerprintSpec [65]) ∧
    deriveFingerprintSpec [65] = "559AEAD08264" :=
  ⟨by decide, (C3_fingerprint "QQ==" [65] (by decide)).1, by decide⟩

/-- C4: the code always matches `XXXX-XXXX` — 9 characters, the separator
exactly after the 4th, the other 8 from the restricted alphabet
`ABCDEFGHJKLMNPQRSTUVWXYZ23456789`, each obtained as a digest byte
`mod 32`. -/
theorem C4_format : ∀ (now : Nat) (pk : String),
    (generateDailyLinkCode now pk).length = 9 ∧
    (generateDailyLinkCode now pk).data.getD 4 ' ' = '-' ∧
    ((generateDailyLinkCode now pk).data.take 4 ++
      (generateDailyLinkCode now pk).data.drop 5).all
      (fun ch => linkAlphabet.contains ch) = true ∧
    generateDailyLinkCode now pk = mkLinkCode (sha256 (utf8Bytes (pk ++ dayBucketUTC now))) ∧
    linkAlphabet = "ABCDEFGHJKLMNPQRSTUVWXYZ23456789".data := by
  intro now pk
  have he : generateDailyLinkCode now pk
      = mkLinkCode (sha256 (utf8Bytes (pk ++ dayBucketUTC now))) := by
    rw [generateDailyLinkCode_eq, dateBucket_eq]
  refine ⟨by rw [he]; exact mkLinkCode_length _, by rw [he]; rfl, ?_, he, rfl⟩
  rw [he]
  simp [mkLinkCode_data, alphaChar_contains, alphaCharElem_mem]

/-- C5, counterexample: on input `"!"`, which is not valid base64, the
link-code deriver does not reject — it returns an ordinary well-formed
9-character code. -/
theorem C5_counterexample :
    base64ToArrayBuffer "!" = none ∧ (generateDailyLinkCode 0 "!").length = 9 := by
  constructor
  · decide
  · rw [generateDailyLinkCode_eq]; exact mkLinkCode_length _

/-- C5 (amended): only the fingerprint deriver rejects malformed input
(with `MalformedKeyInput`); the link-code deriver never decodes the key and
returns an ordinary well-formed code on every input. -/
theorem C5_error_handling :
    (∀ s : String, base64ToArrayBuffer s = none →
      generateFingerprint s = .error .malformedKeyInput) ∧
    (∀ (now : Nat) (s : String), (generateDailyLinkCode now s).length = 9) := by
  constructor
  · intro s h
    simp only [generateFingerprint, generateFingerprintWith, h]
  · intro now s
    rw [generateDailyLinkCode_eq]; exact mkLinkCode_length _

/-- C5 witness: the fingerprint deriver rejects the malformed input `"!"`. -/
theorem C5_error_handling_witness :
    base64ToArrayBuffer "!" = none ∧
    generateFingerprint "!" = .error .malformedKeyInput :=
  ⟨by decide, C5_error_handling.1 "!" (by decide)⟩

/-- C6: identity creation is all-or-nothing — a failing key-pair generator
or a failing digest collaborator surfaces `CryptoUnavailable` and leaves
the store unchanged, and on success the composed record (keys, fingerprint
of the public key, creation timestamp) is returned and stored. -/
theorem C6_create_identity :
    (∀ (digest : List Nat → Except CryptoErr (List Nat)) (now : Nat)
        (store : Option UserIdentity),
      handleCreateIdentity (fun _p => .error .cryptoUnavailable) digest now store
        = (.error .cryptoUnavailable, store)) ∧
    (∀ (pub priv : List Nat) (now : Nat) (store : Option UserIdentity),
      (∀ b ∈ pub, b < 256) →
      handleCreateIdentity (fun _p => .ok (pub, priv))
          (fun _bs => .error .cryptoUnavailable) now store
        = (.error .cryptoUnavailable, store)) ∧
    (∀ (pub priv : List Nat) (now : Nat) (store : Option UserIdentity),
      (∀ b ∈ pub, b < 256) →
      handleCreateIdentity (fun _p => .ok (pub, priv)) subtleDigest now store
        = (.ok ⟨arrayBufferToBase64 pub, arrayBufferToBase64 priv,
                deriveFingerprintSpec pub, now⟩,
           some ⟨arrayBufferToBase64 pub, arrayBufferToBase64 priv,
                 deriveFingerprintSpec pub, now⟩)) := by
  refine ⟨fun digest now store => rfl, ?_, ?_⟩
  · intro pub priv now store h
    simp only [handleCreateIdentity, generateKeyPair, generateFingerprintWith,
      base64ToArrayBuffer, atob_arrayBufferToBase64 pub h]
  · intro pub priv now store h
    simp only [handleCreateIdentity, generateKeyPair, generateFingerprintWith,
      base64ToArrayBuffer, atob_arrayBufferToBase64 pub h, subtleDigest, deriveFingerprintSpec]

/-- C6 witness: a concrete run of each branch. -/
theorem C6_create_identity_witness :
    (∀ b ∈ ([2] : List Nat), b < 256) ∧
    handleCreateIdentity (fun _p => .ok ([2], [3]))
        (fun _bs => .error .cryptoUnavailable) 7 none
      = (.error .cryptoUnavailable, none) ∧
    handleCreateIdentity (fun _p => .ok ([2], [3])) subtleDigest 7 none
      = (.ok ⟨arrayBufferToBase64 [2], arrayBufferToBase64 [3], deriveFingerprintSpec [2], 7⟩,
         some ⟨arrayBufferToBase64 [2], arrayBufferToBase64 [3],
               deriveFingerprintSpec [2], 7⟩) :=
  ⟨by decide, C6_create_identity.2.1 [2] [3] 7 none (by decide),
    C6_create_identity.2.2 [2] [3] 7 none (by decide)⟩

/-- C7: the fingerprint is a deterministic function of the public key text
alone — invocations at any two ambient platform states (clock, entropy)
return the identical string. -/
theorem C7_determinism : ∀ (a1 a2 : Ambient) (pk : String),
    generateFingerprintAt a1 pk = generateFingerprintAt a2 pk ∧
    generateFingerprintAt a1 pk = generateFingerprint pk :=
  fun _ _ _ => ⟨rfl, rfl⟩

/-- C8: decoding the base64 encoding of any byte buffer restores it byte
for byte. -/
theorem C8_roundtrip : ∀ bs : List Nat, (∀ b ∈ bs, b < 256) →
    base64ToArrayBuffer (arrayBufferToBase64 bs) = some bs :=
  fun bs h => atob_arrayBufferToBase64 bs h

/-- C8 witness: the round trip on a concrete 3-byte buffer. -/
theorem C8_roundtrip_witness :
    (∀ b ∈ ([0, 255, 17] : List Nat), b < 256) ∧
    base64ToArrayBuffer (arrayBufferToBase64 [0, 255, 17]) = some [0, 255, 17] :=
  ⟨by decide, C8_roundtrip [0, 255, 17] (by decide)⟩

/-- C9: `generateKeyPair` requests a 2048-bit RSA-OAEP key pair with
SHA-256 as the OAEP hash (public exponent 65537) and returns both exported
keys base64-encoded. -/
theorem C9_keypair :
    (∀ (gen : RsaHashedKeyGenParams → Except CryptoErr (List Nat × List Nat))
        (pub priv : List Nat),
      gen rsaKeyGenParams = .ok (pub, priv) →
      generateKeyPair gen = .ok (arrayBufferToBase64 pub, arrayBufferToBase64 priv)) ∧
    rsaKeyGenParams.name = "RSA-OAEP" ∧ rsaKeyGenParams.modulusLength = 2048 ∧
    rsaKeyGenParams.publicExponent = [1, 0, 1] ∧ rsaKeyGenParams.hash = "SHA-256" :=
  ⟨fun gen pub priv h => by simp only [generateKeyPair, h], rfl, rfl, rfl, rfl⟩

/-- C9 witness: a platform stub returning concrete exported key bytes. -/
theorem C9_keypair_witness :
    (fun _p : RsaHashedKeyGenParams => (.ok ([5], [6]) :
      Except CryptoErr (List Nat × List Nat))) rsaKeyGenParams = .ok ([5], [6]) ∧
    generateKeyPair (fun _p => .ok ([5], [6]))
      = .ok (arrayBufferToBase64 [5], arrayBufferToBase64 [6]) :=
  ⟨rfl, C9_keypair.1 (fun _p => .ok ([5], [6])) [5] [6] rfl⟩

/-- C10: the link-code derivation is total over arbitrary strings — it
digests the UTF-8 text of its input directly, never decodes it, and always
returns a 9-character code, even on invalid base64; two textually different
encodings of the same key byte yield different codes. -/
theorem C10_totality :
    (∀ (now : Nat) (s : String), (generateDailyLinkCode now s).length = 9) ∧
    (∀ (now : Nat) (s : String),
      generateDailyLinkCode now s = mkLinkCode (sha256 (utf8Bytes (s ++ dayBucketUTC now)))) ∧
    base64ToArrayBuffer "!" = none ∧
    base64ToArrayBuffer "QQ==" = some [65] ∧
    base64ToArrayBuffer "QR==" = some [65] ∧
    generateDailyLinkCode 0 "QQ==" ≠ generateDailyLinkCode 0 "QR==" := by
  refine ⟨?_, ?_, by decide, by decide, by decide, by decide⟩
  · intro now s
    rw [generateDailyLinkCode_eq]; exact mkLinkCode_length _
  · intro now s
    rw [generateDailyLinkCode_eq, dateBucket_eq]

end GhostLink
